import Mathlib

/-!
Verification of the wandbai experiment-dashboard core against its code.

This file gives a shallow embedding of the data-access layer
(wandb_integration.py), the analysis-service adapter (ai_analysis.py) and
the clustering pipeline (clustering.py), and proves or refutes the stated
properties about them.  External library calls (the wandb API, the
Anthropic client, json.loads, scikit-learn estimators) are modelled either
as function parameters or as small executable models; everything written
by the repository itself is translated statement by statement.
-/

/-- Occurrence scan over character lists (structural, so that concrete
instances evaluate by kernel reduction). -/
def containsSub (needle : List Char) : List Char → Bool
  | [] => needle.isEmpty
  | h :: t => needle.isPrefixOf (h :: t) || containsSub needle t

/-- Python substring test `needle in hay`. -/
def pyContains (needle hay : String) : Bool :=
  containsSub needle.data hay.data

/-- Python str.strip: whitespace removed from both ends. -/
def pyStrip (s : String) : String :=
  ⟨((s.data.dropWhile Char.isWhitespace).reverse.dropWhile
      Char.isWhitespace).reverse⟩

/-- Python str.lower (ASCII, which covers every message classified). -/
def pyLower (s : String) : String :=
  ⟨s.data.map Char.toLower⟩

/-- Python str.startswith. -/
def pyStartsWith (s pre : String) : Bool :=
  pre.data.isPrefixOf s.data

/-- Substring occurrence as a proposition: hay literally contains needle. -/
def strContains (hay needle : String) : Prop :=
  ∃ a b, hay = a ++ needle ++ b

/-- Python scalar values appearing in run summaries and configs.
Floats are modelled as rationals; container values (only their presence or
absence matters to the table builder) are represented by `pylist`. -/
inductive PyVal where
  | int (n : Int)
  | float (q : ℚ)
  | bool (b : Bool)
  | str (s : String)
  | pyNone
  | pylist (items : List String)
deriving DecidableEq

/-- isinstance(value, (int, float)) — note that bool is a subclass of int
in Python, so boolean values pass this check as well. -/
def isNumericPy : PyVal → Bool
  | .int _ => true
  | .float _ => true
  | .bool _ => true
  | _ => false

/-- isinstance(value, (int, float, str, bool)). -/
def isScalarPy : PyVal → Bool
  | .int _ => true
  | .float _ => true
  | .bool _ => true
  | .str _ => true
  | _ => false

/-- The exceptions that flow through wandb_integration.py: the two
transient builtin errors recognised by the retry policy, a generic
`Exception` raised by the remote api (carrying only its message),
json decoding failures, and the typed taxonomy of exceptions.py. -/
inductive PyExc where
  | connectionError (msg : String)
  | timeoutError (msg : String)
  | exc (msg : String)
  | jsonDecodeError (msg : String)
  | wandbConnection (msg : String)
  | wandbAuthentication (msg : String)
  | wandbProjectNotFound (msg : String)
  | wandbRateLimit (msg : String)
  | validationError (msg : String)
deriving DecidableEq

/-- str(e): the message carried by the exception. -/
def PyExc.msg : PyExc → String
  | .connectionError m => m
  | .timeoutError m => m
  | .exc m => m
  | .jsonDecodeError m => m
  | .wandbConnection m => m
  | .wandbAuthentication m => m
  | .wandbProjectNotFound m => m
  | .wandbRateLimit m => m
  | .validationError m => m

/-- isinstance(e, (ConnectionError, TimeoutError)): the exception class
pair retried by the tenacity decorator. -/
def PyExc.isRetryable : PyExc → Bool
  | .connectionError _ => true
  | .timeoutError _ => true
  | _ => false

/-- WandBIntegration._validate_entity. -/
def validate_entity (entity : String) : Except PyExc Unit :=
  if entity = "" ∨ pyStrip entity = "" then
    .error (.validationError "Entity name cannot be empty")
  else if 100 < entity.length then
    .error (.validationError "Entity name too long (max 100 characters)")
  else
    .ok ()

/-- WandBIntegration._validate_project. -/
def validate_project (project : String) : Except PyExc Unit :=
  if project = "" ∨ pyStrip project = "" then
    .error (.validationError "Project name cannot be empty")
  else if 100 < project.length then
    .error (.validationError "Project name too long (max 100 characters)")
  else
    .ok ()

/-- The tenacity decorator
retry(stop=stop_after_attempt(n), retry=retry_if_exception_type((ConnectionError, TimeoutError)), reraise=True):
the wrapped call is attempted up to n times; a retryable exception before
the last attempt triggers another attempt (with the next attempt index),
a retryable exception on the last attempt is re-raised as is (reraise),
and any other exception propagates immediately.  Wait times are dropped
from the model since they do not affect values. -/
def tenacityRetry {α : Type} : ℕ → (ℕ → Except PyExc α) → ℕ → Except PyExc α
  | 0, f, i => f i
  | 1, f, i => f i
  | n + 2, f, i =>
    match f i with
    | .ok a => .ok a
    | .error e =>
      if e.isRetryable then tenacityRetry (n + 1) f (i + 1) else .error e

/-- One attempt of WandBIntegration.get_projects.  The remote call
self.api.projects is modelled as a function from the attempt index to
either the list of project names or a raised exception. -/
def get_projects_attempt (api : ℕ → Except PyExc (List String))
    (entity : String) (i : ℕ) : Except PyExc (List String) :=
  match validate_entity entity with
  | .error e => .error e
  | .ok _ =>
    match api i with
    | .ok projects => .ok projects
    | .error e =>
      if e.isRetryable then
        -- except (ConnectionError, TimeoutError): re-raise for retry logic
        .error e
      else
        -- except Exception: classify by substring of str(e).lower()
        let m := pyLower e.msg
        if pyContains "authentication" m || pyContains "unauthorized" m then
          .error (.wandbAuthentication ("Authentication failed: " ++ e.msg))
        else if pyContains "rate limit" m then
          .error (.wandbRateLimit ("Rate limit exceeded: " ++ e.msg))
        else
          .error (.wandbConnection ("Error fetching projects: " ++ e.msg))

/-- WandBIntegration.get_projects: the attempt body wrapped in the retry
decorator (stop_after_attempt(3)). -/
def get_projects (api : ℕ → Except PyExc (List String))
    (entity : String) : Except PyExc (List String) :=
  tenacityRetry 3 (get_projects_attempt api entity) 0

/-- A wandb run handle as exposed to this system (section 6 of the spec).
The `broken` flag models a malformed handle whose attribute access raises
inside extract_run_data; all other fields are the data the source reads. -/
structure RunHandle where
  id : String
  name : String
  state : String
  created_at : String
  updated_at : String
  summary : List (String × PyVal)
  config : List (String × PyVal)
  user : Option String
  commit : Option String
  tags : List String
  notes : String
  url : String
  broken : Bool
deriving DecidableEq

/-- One attempt of WandBIntegration.get_runs.  The remote call
self.api.runs(path, per_page=limit) is modelled as a function of the path,
the per_page value and the attempt index. -/
def get_runs_attempt (api : String → ℕ → ℕ → Except PyExc (List RunHandle))
    (entity project : String) (limit : ℕ) (i : ℕ) :
    Except PyExc (List RunHandle) :=
  match validate_entity entity with
  | .error e => .error e
  | .ok _ =>
  match validate_project project with
  | .error e => .error e
  | .ok _ =>
    match api (entity ++ "/" ++ project) limit i with
    | .ok runs => .ok runs
    | .error e =>
      if e.isRetryable then
        .error e
      else
        let m := pyLower e.msg
        if pyContains "not found" m || pyContains "does not exist" m then
          .error (.wandbProjectNotFound
            ("Project " ++ entity ++ "/" ++ project ++ " not found"))
        else if pyContains "rate limit" m then
          .error (.wandbRateLimit ("Rate limit exceeded: " ++ e.msg))
        else
          .error (.wandbConnection ("Error fetching runs: " ++ e.msg))

/-- WandBIntegration.get_runs: attempt body wrapped in the retry policy. -/
def get_runs (api : String → ℕ → ℕ → Except PyExc (List RunHandle))
    (entity project : String) (limit : ℕ) : Except PyExc (List RunHandle) :=
  tenacityRetry 3 (get_runs_attempt api entity project limit) 0

/-- The record produced by WandBIntegration.extract_run_data. -/
structure RunData where
  id : String
  name : String
  state : String
  created_at : String
  updated_at : String
  runtime : PyVal
  user : String
  commit : Option String
  tags : List String
  notes : String
  url : String
  summary : List (String × PyVal)
  config : List (String × PyVal)
deriving DecidableEq

/-- The metadata projection performed by extract_run_data on a readable
handle: runtime is run.summary.get(underscore-runtime, 0) and user falls
back to the literal unknown. -/
def runDataOf (r : RunHandle) : RunData :=
  ⟨r.id, r.name, r.state, r.created_at, r.updated_at,
   (r.summary.lookup "_runtime").getD (.int 0),
   r.user.getD "unknown",
   r.commit, r.tags, r.notes, r.url, r.summary, r.config⟩

/-- WandBIntegration.extract_run_data: any exception raised while reading
the handle is converted to a ValidationError. -/
def extract_run_data (r : RunHandle) : Except PyExc RunData :=
  if r.broken then
    .error (.validationError "Failed to extract run data")
  else
    .ok (runDataOf r)

/-- A row of the run table: a Python dict in insertion order. -/
abbrev Row := List (String × PyVal)

/-- Assignment row[k] = v on a Python dict: overwrite in place if the key
exists, append otherwise. -/
def addRowKey (row : Row) (k : String) (v : PyVal) : Row :=
  if row.any (fun p => p.1 == k) then
    row.map (fun p => if p.1 == k then (k, v) else p)
  else
    row ++ [(k, v)]

/-- A guarded key-renaming insertion loop, the common shape of the two
column-adding loops of get_runs_dataframe. -/
def addPairs (cond : String × PyVal → Bool) (keyf : String × PyVal → String) :
    Row → List (String × PyVal) → Row
  | row, [] => row
  | row, kv :: rest =>
    addPairs cond keyf
      (if cond kv then addRowKey row (keyf kv) kv.2 else row) rest

/-- The tags field of a row: a comma join, empty for the empty list. -/
def tagsJoined (tags : List String) : String :=
  if tags.isEmpty then "" else String.intercalate "," tags

def commitVal : Option String → PyVal
  | some c => .str c
  | none => .pyNone

/-- The seven metadata entries every row starts with. -/
def baseRow (d : RunData) : Row :=
  [("id", .str d.id), ("name", .str d.name), ("state", .str d.state),
   ("created_at", .str d.created_at), ("runtime", d.runtime),
   ("commit", commitVal d.commit), ("tags", .str (tagsJoined d.tags))]

/-- Guard of the summary-metrics loop: keys not starting with an
underscore whose value is an int or float (hence also bool). -/
def summaryCond (kv : String × PyVal) : Bool :=
  !pyStartsWith kv.1 "_" && isNumericPy kv.2

def summaryKey (kv : String × PyVal) : String := kv.1

/-- Guard of the config loop: scalar values only. -/
def configCond (kv : String × PyVal) : Bool := isScalarPy kv.2

def configKey (kv : String × PyVal) : String := "config_" ++ kv.1

/-- The row built for one run inside get_runs_dataframe: metadata, then
summary metrics, then namespaced config values. -/
def rowOf (d : RunData) : Row :=
  addPairs configCond configKey
    (addPairs summaryCond summaryKey (baseRow d) d.summary) d.config

/-- The per-run loop of get_runs_dataframe: extraction failures are
caught, logged and skipped (continue); successful rows are kept in fetch
order. -/
def runs_dataframe_rows : List RunHandle → List Row
  | [] => []
  | r :: rest =>
    match extract_run_data r with
    | .ok d => rowOf d :: runs_dataframe_rows rest
    | .error _ => runs_dataframe_rows rest

/-- WandBIntegration.get_runs_dataframe: get_runs, then the row loop, the
result being the row list of pd.DataFrame(data). -/
def get_runs_dataframe (api : String → ℕ → ℕ → Except PyExc (List RunHandle))
    (entity project : String) (limit : ℕ) : Except PyExc (List Row) :=
  match get_runs api entity project limit with
  | .error e => .error e
  | .ok runs => .ok (runs_dataframe_rows runs)

/-- The column set of pd.DataFrame(data): union of the row keys in first
appearance order. -/
def unionCols (rows : List Row) : List String :=
  rows.foldl
    (fun acc row =>
      row.foldl (fun a p => if a.contains p.1 then a else a ++ [p.1]) acc)
    []

/-- JSON values, as produced by json.loads and consumed by json.dumps in
ai_analysis.py. -/
inductive Json where
  | null
  | bool (b : Bool)
  | num (q : ℚ)
  | str (s : String)
  | arr (items : List Json)
  | obj (fields : List (String × Json))

mutual

/-- json.dumps (indentation and string escaping are not modelled; only
totality of serialisation matters to the adapter). -/
def jsonDumps : Json → String
  | .null => "null"
  | .bool true => "true"
  | .bool false => "false"
  | .num q => toString q
  | .str s => "\"" ++ s ++ "\""
  | .arr items => "[" ++ String.intercalate ", " (jsonDumpsList items) ++ "]"
  | .obj fields =>
    "\x7b" ++ String.intercalate ", " (jsonDumpsObj fields) ++ "\x7d"

def jsonDumpsList : List Json → List String
  | [] => []
  | j :: rest => jsonDumps j :: jsonDumpsList rest

def jsonDumpsObj : List (String × Json) → List String
  | [] => []
  | (k, j) :: rest => ("\"" ++ k ++ "\": " ++ jsonDumps j) :: jsonDumpsObj rest

end

def pyFindAux (c : Char) : List Char → Int → Int
  | [], _ => -1
  | a :: rest, i => if a = c then i else pyFindAux c rest (i + 1)

/-- Python str.find for a single character: first index or -1. -/
def pyFind (s : String) (c : Char) : Int :=
  pyFindAux c s.data 0

def pyRfindAux (c : Char) : List Char → Int → Int → Int
  | [], _, best => best
  | a :: rest, i, best => pyRfindAux c rest (i + 1) (if a = c then i else best)

/-- Python str.rfind for a single character: last index or -1. -/
def pyRfind (s : String) (c : Char) : Int :=
  pyRfindAux c s.data 0 (-1)

/-- Python slice s[a:b] for the non-negative indices produced by find. -/
def pySlice (s : String) (a b : Int) : String :=
  ⟨(s.data.drop a.toNat).take (b.toNat - a.toNat)⟩

/-- Python slice s[:n]. -/
def pyTake (s : String) (n : ℕ) : String := ⟨s.data.take n⟩

/-- A try/except Exception block: any raised exception is given to the
handler. -/
def pyTry {α : Type} (body : Except PyExc α) (handler : PyExc → Except PyExc α) :
    Except PyExc α :=
  match body with
  | .ok a => .ok a
  | .error e => handler e

/-- AIAnalyzer._parse_analysis_response.  json.loads is passed in as a
parameter; its only failure mode is json.JSONDecodeError, which is exactly
what the except clause of the source catches, so the parse is total. -/
def parse_analysis_response (loads : String → Except Unit Json)
    (response : String) : Json :=
  let start := pyFind response '\x7b'
  let stop := pyRfind response '\x7d' + 1
  if start ≠ -1 ∧ start < stop then
    match loads (pySlice response start stop) with
    | .ok j => j
    | .error _ =>
      -- except json.JSONDecodeError
      .obj [("summary", .str (if response ≠ "" then pyTake response 200
                              else "Analysis completed")),
            ("insights", .arr (if response ≠ "" then [.str response] else [])),
            ("recommendations", .arr []),
            ("key_findings", .arr [])]
  else
    -- fallback: structure the plain text response
    .obj [("summary", .str (pyTake response 200)),
          ("insights", .arr [.str response]),
          ("recommendations", .arr []),
          ("key_findings", .arr [])]

/-- AIAnalyzer._build_cluster_analysis_prompt (built before the try block
in the source, so its totality matters). -/
def build_cluster_analysis_prompt (cluster_data all_clusters : Json)
    (selected_run : Option Json) : String :=
  String.intercalate "\n"
    (["You are an AI research assistant analyzing machine learning experiments.",
      "Analyze the following experiment data and provide insights.\n",
      "## Cluster Data:", jsonDumps cluster_data,
      "\n## All Clusters (for comparison):", jsonDumps all_clusters]
     ++ (match selected_run with
         | some sr => ["\n## Selected Run Details:", jsonDumps sr]
         | none => [])
     ++ ["\nProvide analysis in the following JSON format:", "\x7b",
         "  \"summary\": \"Brief 1-2 sentence summary of the key finding\",",
         "  \"insights\": [\"insight 1\", \"insight 2\", \"insight 3\"],",
         "  \"recommendations\": [\"recommendation 1\", \"recommendation 2\"],",
         "  \"key_findings\": [\"finding 1\", \"finding 2\"]", "\x7d",
         "\nFocus on:", "1. Performance differences between clusters",
         "2. Configuration parameters that impact results",
         "3. Convergence patterns",
         "4. Actionable next steps for improving performance"])

/-- The static fallback of analyze_experiment_cluster. -/
def fallbackClusterAnalysis : Json :=
  .obj [("summary", .str "Analysis unavailable"), ("insights", .arr []),
        ("recommendations", .arr []), ("key_findings", .arr [])]

/-- AIAnalyzer.analyze_experiment_cluster.  The Anthropic client call is
modelled by svc: prompt text to completion text or a raised exception. -/
def analyze_experiment_cluster (loads : String → Except Unit Json)
    (svc : String → Except PyExc String) (cluster_data all_clusters : Json)
    (selected_run : Option Json) : Except PyExc Json :=
  let prompt := build_cluster_analysis_prompt cluster_data all_clusters selected_run
  pyTry
    (match svc prompt with
     | .ok text => .ok (parse_analysis_response loads text)
     | .error e => .error e)
    (fun _ => .ok fallbackClusterAnalysis)

/-- The static fallback of AIAnalyzer.compare_runs. -/
def fallbackComparison : Json :=
  .obj [("performance_difference", .str "Analysis unavailable"),
        ("config_differences", .arr []), ("likely_causes", .arr []),
        ("recommendation", .str "")]

/-- AIAnalyzer.compare_runs (prompt assembly condensed; it is total). -/
def ai_compare_runs (loads : String → Except Unit Json)
    (svc : String → Except PyExc String) (run1 run2 : Json)
    (code_diff : Option String) : Except PyExc Json :=
  let prompt := String.intercalate "\n"
    (["Compare these two ML experiment runs and explain the differences:\n",
      "## Run 1:", jsonDumps run1, "\n## Run 2:", jsonDumps run2]
     ++ (match code_diff with
         | some d => ["\n## Code Changes:", d]
         | none => [])
     ++ ["\nProvide comparison in JSON format:", "\x7b",
         "  \"performance_difference\": \"Description of performance changes\",",
         "  \"config_differences\": [\"difference 1\", \"difference 2\"],",
         "  \"likely_causes\": [\"cause 1\", \"cause 2\"],",
         "  \"recommendation\": \"What to try next\"", "\x7d"])
  pyTry
    (match svc prompt with
     | .ok text => .ok (parse_analysis_response loads text)
     | .error e => .error e)
    (fun _ => .ok fallbackComparison)

/-- AIAnalyzer.suggest_experiments: inline bracket extraction inside the
try block; a json.JSONDecodeError from loads propagates to the outer
except Exception handler. -/
def suggest_experiments (loads : String → Except Unit Json)
    (svc : String → Except PyExc String) (current_results : Json)
    (goal : String) : Except PyExc Json :=
  let prompt :=
    "Based on these experiment results, suggest 3-5 concrete next experiments to try.\nGoal: "
    ++ goal ++ "\n\nCurrent Results:\n" ++ jsonDumps current_results
    ++ "\n\nProvide suggestions as a JSON array:\n[\"suggestion 1\", \"suggestion 2\", \"suggestion 3\"]\n\nEach suggestion should be specific and actionable, including parameter values to try."
  pyTry
    (match svc prompt with
     | .ok text =>
       let start := pyFind text '['
       let stop := pyRfind text ']' + 1
       if start ≠ -1 ∧ start < stop then
         match loads (pySlice text start stop) with
         | .ok j => .ok j
         | .error _ => .error (.jsonDecodeError "Expecting value")
       else
         .ok (.arr [.str text])
     | .error e => .error e)
    (fun _ => .ok (.arr [.str "Unable to generate suggestions at this time."]))

/-- The static fallback of analyze_code_changes. -/
def fallbackCodeImpact : Json :=
  .obj [("impact_summary", .str "Analysis unavailable"),
        ("metric_changes", .arr []), ("code_explanation", .str ""),
        ("causation_analysis", .str "")]

/-- AIAnalyzer.analyze_code_changes. -/
def analyze_code_changes (loads : String → Except Unit Json)
    (svc : String → Except PyExc String) (code_diff : String)
    (before_metrics after_metrics : Json) : Except PyExc Json :=
  let prompt :=
    "Analyze how these code changes affected the ML model performance:\n\n## Code Changes:\n"
    ++ code_diff ++ "\n\n## Metrics Before:\n" ++ jsonDumps before_metrics
    ++ "\n\n## Metrics After:\n" ++ jsonDumps after_metrics
    ++ "\n\nProvide analysis in JSON format:\n\x7b\n  \"impact_summary\": \"Brief summary of impact\",\n  \"metric_changes\": [\"change 1\", \"change 2\"],\n  \"code_explanation\": \"What the code changes do\",\n  \"causation_analysis\": \"Why these changes affected metrics this way\"\n\x7d"
  pyTry
    (match svc prompt with
     | .ok text => .ok (parse_analysis_response loads text)
     | .error e => .error e)
    (fun _ => .ok fallbackCodeImpact)

/-- pandas column dtypes distinguished by clustering.py. -/
inductive Dtype where
  | float64
  | int64
  | object
deriving DecidableEq

/-- A cell of a pandas column: a numeric value (floats modelled as
rationals), a missing value (NaN), or a non-numeric object. -/
inductive Entry where
  | num (q : ℚ)
  | nan
  | obj (s : String)
deriving DecidableEq

structure Column where
  name : String
  dtype : Dtype
  entries : List Entry
deriving DecidableEq

/-- A pandas DataFrame: named, typed columns in order.  All columns of a
well-formed frame have the same length (DataFrame.wf). -/
structure DataFrame where
  cols : List Column
deriving DecidableEq

def DataFrame.nrows (df : DataFrame) : ℕ :=
  match df.cols with
  | [] => 0
  | c :: _ => c.entries.length

/-- df.empty: true when either axis has length zero. -/
def DataFrame.isEmpty (df : DataFrame) : Bool := df.nrows == 0

def DataFrame.getCol (df : DataFrame) (n : String) : Option Column :=
  df.cols.find? (fun c => c.name == n)

def DataFrame.hasCol (df : DataFrame) (n : String) : Bool :=
  (df.getCol n).isSome

def DataFrame.wf (df : DataFrame) : Bool :=
  df.cols.all (fun c => c.entries.length == df.nrows)

/-- Column assignment df[n] = es: overwrite in place when the column
exists, append it otherwise. -/
def DataFrame.setCol (df : DataFrame) (n : String) (dt : Dtype)
    (es : List Entry) : DataFrame :=
  if df.hasCol n then
    ⟨df.cols.map (fun c => if c.name == n then ⟨n, dt, es⟩ else c)⟩
  else
    ⟨df.cols ++ [⟨n, dt, es⟩]⟩

def Entry.toQ : Entry → Option ℚ
  | .num q => some q
  | _ => none

def isNumericDtype (dt : Dtype) : Bool := dt == .float64 || dt == .int64

/-- The metadata exclusion list of prepare_features. -/
def exclude_cols : List String :=
  ["id", "name", "state", "created_at", "runtime", "commit", "tags"]

def colNums (c : Column) : List ℚ := c.entries.filterMap Entry.toQ

/-- The value fillna puts into a missing cell: the column mean of the
present values; the second fillna(0) collapses an all-missing column to
zero.  Non-numeric cells of an explicitly selected column are treated as
missing. -/
def colFillValue (c : Column) : ℚ :=
  if colNums c = [] then 0 else (colNums c).sum / (colNums c).length

def imputedVal (df : DataFrame) (n : String) (i : ℕ) : ℚ :=
  match df.getCol n with
  | none => 0
  | some c =>
    match c.entries.getD i .nan with
    | .num q => q
    | _ => colFillValue c

/-- df[metric_cols] after both fillna calls, as a row-major matrix. -/
def imputedMatrix (df : DataFrame) (metric_cols : List String) :
    List (List ℚ) :=
  (List.range df.nrows).map (fun i =>
    metric_cols.map (fun n => imputedVal df n i))

def listMeanQ (l : List ℚ) : ℚ := if l = [] then 0 else l.sum / l.length

def listVarQ (l : List ℚ) : ℚ :=
  if l = [] then 0
  else (l.map (fun x => (x - listMeanQ l) ^ 2)).sum / l.length

/-- sklearn StandardScaler.fit_transform: per feature subtract the mean
and divide by the population standard deviation, a zero deviation being
replaced by one (the scaler leaves constant features at zero). -/
noncomputable def scaleMatrix (a : List (List ℚ)) (ncols : ℕ) :
    List (List ℝ) :=
  let stats : List (ℚ × ℝ) :=
    (List.range ncols).map (fun j =>
      let cv := a.map (fun r => r.getD j 0)
      (listMeanQ cv,
       if Real.sqrt ((listVarQ cv : ℚ) : ℝ) = 0 then 1
       else Real.sqrt ((listVarQ cv : ℚ) : ℝ)))
  a.map (fun r =>
    (List.range ncols).map (fun j =>
      (((r.getD j 0 : ℚ) : ℝ) - (((stats.getD j (0, 1)).1 : ℚ) : ℝ))
        / (stats.getD j (0, 1)).2))

/-- The metric-column selection of prepare_features: auto-detect numeric
non-metadata columns unless an explicit list is given, then keep only
columns that exist in the frame. -/
def metricColsOf (df : DataFrame) (mcols : Option (List String)) :
    List String :=
  let auto := (df.cols.filter (fun c =>
    isNumericDtype c.dtype && !exclude_cols.contains c.name)).map
      (fun c => c.name)
  let chosen :=
    match mcols with
    | none => auto
    | some l => l
  chosen.filter (fun n => df.hasCol n)

/-- ExperimentCluster.prepare_features: empty frame gives an empty
matrix; an empty metric-column selection gives an empty matrix;
otherwise the imputed feature block is scaled.  The feature_names
instance attribute is bookkeeping not modelled here. -/
noncomputable def prepare_features (df : DataFrame)
    (mcols : Option (List String)) : List (List ℝ) :=
  if df.isEmpty then []
  else if metricColsOf df mcols = [] then []
  else scaleMatrix (imputedMatrix df (metricColsOf df mcols))
    (metricColsOf df mcols).length

/-- numpy ndarray.size of a row-major matrix. -/
def featSize (m : List (List ℝ)) : ℕ := (m.map List.length).sum

noncomputable def argminAux : List ℝ → ℕ × ℝ → ℕ → ℕ
  | [], best, _ => best.1
  | d :: rest, best, i =>
    if d < best.2 then argminAux rest (i, d) (i + 1)
    else argminAux rest best (i + 1)

/-- Index of the first minimum of a list of distances. -/
noncomputable def argminIdx : List ℝ → ℕ
  | [] => 0
  | d :: rest => argminAux rest (0, d) 1

noncomputable def sqDist (x y : List ℝ) : ℝ :=
  ((x.zip y).map (fun p => (p.1 - p.2) ^ 2)).sum

/-- Assignment step: each point receives the index of its nearest centre
by squared euclidean distance, ties to the first. -/
noncomputable def kmeansAssign (centers : List (List ℝ))
    (m : List (List ℝ)) : List ℕ :=
  m.map (fun x => argminIdx (centers.map (fun c => sqDist x c)))

noncomputable def centroidOf (pts : List (List ℝ)) (dim : ℕ) : List ℝ :=
  (List.range dim).map (fun j =>
    (pts.map (fun p => p.getD j 0)).sum / pts.length)

/-- Update step: centre j moves to the centroid of its points, or stays
when no point is assigned to it. -/
noncomputable def kmeansUpdate (k : ℕ) (m : List (List ℝ))
    (labels : List ℕ) (old : List (List ℝ)) : List (List ℝ) :=
  (List.range k).map (fun j =>
    let pts := ((m.zip labels).filter (fun p => p.2 == j)).map Prod.fst
    if pts = [] then old.getD j []
    else centroidOf pts (old.getD j []).length)

noncomputable def kmeansIter (m : List (List ℝ)) (k : ℕ) :
    ℕ → List (List ℝ) → List (List ℝ)
  | 0, cs => cs
  | n + 1, cs => kmeansIter m k n (kmeansUpdate k m (kmeansAssign cs m) cs)

/-- Deterministic model of sklearn
KMeans(n_clusters=k, random_state=42, n_init=10).fit_predict: Lloyd
iterations seeded from the first k points.  The fixed random_state makes
the library a deterministic function of its input; every property stated
below depends only on the assignment discipline, not on the centre
trajectory. -/
noncomputable def kmeansFitPredict (k : ℕ) (m : List (List ℝ)) : List ℕ :=
  kmeansAssign (kmeansIter m k 10 (m.take k)) m

/-- Core test of the DBSCAN model: at least min_samples=2 points (the
point itself included) within eps=0.5, compared on squared distances. -/
noncomputable def dbscanCore (m : List (List ℝ)) (x : List ℝ) : Bool :=
  2 ≤ (m.filter (fun y => decide (sqDist x y ≤ 1 / 4))).length

noncomputable def dbscanInit (m : List (List ℝ)) : List Int :=
  (List.range m.length).map (fun i =>
    if dbscanCore m (m.getD i []) then (i : Int) else -1)

noncomputable def dbscanStep (m : List (List ℝ)) (ls : List Int) : List Int :=
  (List.range m.length).map (fun i =>
    let x := m.getD i []
    if dbscanCore m x then
      (((m.zip ls).filter (fun p =>
          dbscanCore m p.1 && decide (sqDist x p.1 ≤ 1 / 4))).map
        Prod.snd).foldl min (ls.getD i (-1))
    else -1)

noncomputable def dbscanIterate (m : List (List ℝ)) :
    ℕ → List Int → List Int
  | 0, ls => ls
  | n + 1, ls => dbscanIterate m n (dbscanStep m ls)

/-- Coarse model of sklearn DBSCAN(eps=0.5, min_samples=2).fit_predict:
noise points get -1, core points the smallest index reachable along
eps-chains of core points.  Only the shape of its output matters to the
properties below; the branch exists for dispatch fidelity. -/
noncomputable def dbscanFitPredict (m : List (List ℝ)) : List Int :=
  dbscanIterate m m.length (dbscanInit m)

/-- ExperimentCluster.fit_predict: empty input returns an empty label
array; otherwise the configured cluster count is clamped to the sample
count, and an unknown method raises ValueError at call time. -/
noncomputable def fit_predict (method : String) (n_clusters : ℕ)
    (features : List (List ℝ)) : Except PyExc (List Int) :=
  if featSize features = 0 ∨ features.length = 0 then .ok []
  else
    let n_samples := features.length
    let k := min n_clusters n_samples
    if method = "kmeans" then
      .ok (List.map Int.ofNat (kmeansFitPredict k features))
    else if method = "dbscan" then
      .ok (dbscanFitPredict features)
    else
      .error (.exc ("Unknown clustering method: " ++ method))

/-- ExperimentCluster.cluster_runs as a state transformer: the first
component is the returned frame (or the raised exception), the second is
the final state of the frame the caller passed in.  In the degenerate
branch the source assigns the cluster column directly on the input frame
and returns it; only the successful clustering branch copies first. -/
noncomputable def cluster_runs (method : String) (n_clusters : ℕ)
    (df : DataFrame) (mcols : Option (List String)) :
    Except PyExc DataFrame × DataFrame :=
  if df.isEmpty then (.ok df, df)
  else
    let features := prepare_features df mcols
    if featSize features = 0 then
      let mutated := df.setCol "cluster" .int64
        (List.replicate df.nrows (.num 0))
      (.ok mutated, mutated)
    else
      match fit_predict method n_clusters features with
      | .error e => (.error e, df)
      | .ok labels =>
        (.ok (df.setCol "cluster" .int64
          (labels.map (fun l : Int => .num (l : ℚ)))), df)

/-- Per-feature statistics record of a cluster summary; NaN results are
modelled as none. -/
structure ColStats where
  mean : Option ℚ
  std : Option ℝ
  min : Option ℚ
  max : Option ℚ

structure ClusterSummary where
  size : ℕ
  runs : List String
  stats : List (String × ColStats)

def listMinQ : List ℚ → Option ℚ
  | [] => none
  | x :: xs => some (xs.foldl min x)

def listMaxQ : List ℚ → Option ℚ
  | [] => none
  | x :: xs => some (xs.foldl max x)

/-- pandas Series.mean/std/min/max over a column slice: missing values
are skipped, an empty slice yields NaN, and std is the sample standard
deviation (ddof=1), NaN for fewer than two values. -/
noncomputable def colStatsOf (vals : List Entry) : ColStats :=
  let nums := vals.filterMap Entry.toQ
  let m : ℚ := nums.sum / nums.length
  ⟨if nums = [] then none else some m,
   if nums.length < 2 then none
   else some (Real.sqrt
     ((((nums.map (fun x => (x - m) ^ 2)).sum / ((nums.length : ℚ) - 1)) : ℚ) : ℝ)),
   listMinQ nums, listMaxQ nums⟩

/-- numpy elementwise equality as used by df[df[c] == v]: NaN compares
unequal to everything, NaN itself included. -/
def entryEqPy : Entry → Entry → Bool
  | .num a, .num b => a == b
  | .obj a, .obj b => a == b
  | _, _ => false

/-- pandas Series.unique: first-appearance order, duplicates dropped
(a single NaN is kept, matching the structural dedup). -/
def dedupFirst (l : List Entry) : List Entry :=
  l.foldl (fun acc x => if acc.contains x then acc else acc ++ [x]) []

/-- Python int() applied to a cluster label: truncation, exact on the
integral labels clustering produces (int() of NaN raises and is not
reachable from the clustering output; the model returns 0 there). -/
def entryToInt : Entry → Int
  | .num q => q.num / (q.den : Int)
  | _ => 0

def entryStr : Entry → String
  | .obj s => s
  | .num q => toString q
  | .nan => "nan"

/-- ExperimentCluster.get_cluster_summary: one record per distinct
cluster label, with per-numeric-column statistics (the cluster column
itself excluded) and the run names of the cluster in table order. -/
noncomputable def get_cluster_summary (df : DataFrame) :
    List (Int × ClusterSummary) :=
  if !df.hasCol "cluster" || df.isEmpty then []
  else
    let cvals :=
      match df.getCol "cluster" with
      | some c => c.entries
      | none => []
    (dedupFirst cvals).map (fun cv =>
      let idxs := (List.range df.nrows).filter
        (fun i => entryEqPy (cvals.getD i .nan) cv)
      let numeric := df.cols.filter (fun c => isNumericDtype c.dtype)
      let stats := (numeric.filter (fun c => c.name != "cluster")).map
        (fun c => (c.name, colStatsOf (idxs.map (fun i => c.entries.getD i .nan))))
      let runNames :=
        match df.getCol "name" with
        | some c => idxs.map (fun i => entryStr (c.entries.getD i .nan))
        | none => []
      (entryToInt cv, ⟨idxs.length, runNames, stats⟩))

/-- Python comparison mean > t, where a NaN mean (none) compares False. -/
def oGtQ (m : Option ℚ) (t : ℚ) : Bool :=
  match m with
  | some q => t < q
  | none => false

/-- Python comparison mean < t, where a NaN mean (none) compares False. -/
def oLtQ (m : Option ℚ) (t : ℚ) : Bool :=
  match m with
  | some q => q < t
  | none => false

/-- The learning-rate threshold rule of get_cluster_characteristics. -/
def lrParts (s : ColStats) : List String :=
  if oGtQ s.mean (1 / 100) then ["High learning rate"]
  else if oLtQ s.mean (1 / 10000) then ["Low learning rate"]
  else []

/-- The loop body of ExperimentCluster.get_cluster_characteristics: the
fixed threshold rules applied to the stats of one cluster summary, with
the generic label as fallback. -/
def characterizeSummary (cluster_id : Int)
    (stats : List (String × ColStats)) : String :=
  let accParts :=
    match stats.lookup "accuracy" with
    | some s =>
      if oGtQ s.mean (9 / 10) then ["High accuracy"]
      else if oLtQ s.mean (7 / 10) then ["Low accuracy"]
      else []
    | none => []
  let lossParts :=
    match stats.lookup "loss" with
    | some s =>
      if oLtQ s.mean (1 / 10) then ["Well converged"]
      else if oGtQ s.mean (1 / 2) then ["Convergence issues"]
      else []
    | none => []
  let lrps :=
    match stats.lookup "config_learning_rate" with
    | some s => lrParts s
    | none =>
      match stats.lookup "learning_rate" with
      | some s => lrParts s
      | none => []
  let desc_parts := accParts ++ lossParts ++ lrps
  if desc_parts ≠ [] then String.intercalate ", " desc_parts
  else "Cluster " ++ toString cluster_id

noncomputable def get_cluster_characteristics (df : DataFrame) :
    List (Int × String) :=
  (get_cluster_summary df).map
    (fun p => (p.1, characterizeSummary p.1 p.2.stats))

/-- Specification-side grouping: the feature values of the rows whose
label equals cid, in table order. -/
def groupVals (qs : List ℚ) (labels : List Int) (cid : Int) : List ℚ :=
  ((qs.zip labels).filter (fun p => p.2 == cid)).map Prod.fst

/-- Recogniser for the RateLimit-specific failure of the taxonomy. -/
def isRateLimitResult {α : Type} : Except PyExc α → Bool
  | .error (.wandbRateLimit _) => true
  | _ => false

/-- A concrete stats mapping with accuracy mean 0.95 and loss mean 0.05. -/
def exampleStats : List (String × ColStats) :=
  [("accuracy", ⟨some (19 / 20), none, some (19 / 20), some (19 / 20)⟩),
   ("loss", ⟨some (1 / 20), none, some (1 / 20), some (1 / 20)⟩)]

/-- A single-object-column frame whose feature preparation is empty. -/
def objOnlyFrame : DataFrame := ⟨[⟨"name", .object, [.obj "run1"]⟩]⟩

/-- A concrete readable run handle exercising the row builder: an
underscore-prefixed summary key, a numeric metric, a boolean metric, and
numeric plus string config values. -/
def exampleRun : RunHandle :=
  ⟨"1", "r1", "finished", "t0", "t1",
   [("_step", .int 5), ("accuracy", .float (19 / 20)), ("flag", .bool true)],
   [("lr", .float (1 / 1000)), ("optimizer", .str "adam")],
   none, none, [], "", "", false⟩

/-- The single numeric feature column of the round-trip example, holding
the literal values 0.9, 0.92 and 0.94. -/
def accCol : Column :=
  ⟨"accuracy", .float64,
   [.num (9 / 10), .num (92 / 100), .num (94 / 100)]⟩

/-- A run table with accCol as its only column. -/
def accFrame : DataFrame := ⟨[accCol]⟩

/-- The raw rational values of accCol. -/
def accQs : List ℚ := [9 / 10, 92 / 100, 94 / 100]

/- ------------------------------------------------------------------ -/
/- Helper lemmas -/
/- ------------------------------------------------------------------ -/

lemma pyTry_ok_handler {α : Type} (body : Except PyExc α) (fb : α) :
    ∃ v, pyTry body (fun _ => Except.ok fb) = .ok v := by
  cases body with
  | ok a => exact ⟨a, rfl⟩
  | error e => exact ⟨fb, rfl⟩

lemma filter_length_split {α : Type} (p : α → Bool) (l : List α) :
    (l.filter p).length + (l.filter (fun x => !p x)).length = l.length := by
  induction l with
  | nil => rfl
  | cons a t ih =>
    by_cases h : p a <;> simp [List.filter_cons, h, ← ih] <;> omega

lemma runs_rows_eq_filter (runs : List RunHandle) :
    runs_dataframe_rows runs =
      (runs.filter (fun r => !r.broken)).map (fun r => rowOf (runDataOf r)) := by
  induction runs with
  | nil => rfl
  | cons r rest ih =>
    by_cases h : r.broken <;>
      simp [runs_dataframe_rows, extract_run_data, h, ih, List.filter_cons]


lemma tenacityRetry3 {α : Type} (f : ℕ → Except PyExc α) (i : ℕ) :
    tenacityRetry 3 f i =
      match f i with
      | .ok a => .ok a
      | .error e =>
        if e.isRetryable then
          match f (i + 1) with
          | .ok a => .ok a
          | .error e2 =>
            if e2.isRetryable then f (i + 2) else .error e2
        else .error e := by
  rfl

/-- Claim C7 (confirmed): get_projects on an entity that is empty after
stripping, or longer than 100 characters, raises ValidationError at
once; the result does not depend on the remote api at all, so no network
call is attempted and no retry is triggered. -/
theorem get_projects_validation (api api' : ℕ → Except PyExc (List String))
    (entity : String) (h : pyStrip entity = "" ∨ 100 < entity.length) :
    get_projects api entity =
      .error (.validationError
        (if pyStrip entity = "" then "Entity name cannot be empty"
         else "Entity name too long (max 100 characters)")) ∧
    get_projects api entity = get_projects api' entity := by
  have hval : validate_entity entity =
      .error (.validationError
        (if pyStrip entity = "" then "Entity name cannot be empty"
         else "Entity name too long (max 100 characters)")) := by
    unfold validate_entity
    rcases h with h | h
    · simp [h]
    · by_cases ht : pyStrip entity = ""
      · simp [ht]
      · have hne : entity ≠ "" := fun h1 => ht (by rw [h1]; decide)
        simp [hne, ht, h]
  have hall : ∀ a : ℕ → Except PyExc (List String),
      get_projects a entity =
        .error (.validationError
          (if pyStrip entity = "" then "Entity name cannot be empty"
           else "Entity name too long (max 100 characters)")) := by
    intro a
    have hatt : get_projects_attempt a entity 0 =
        .error (.validationError
          (if pyStrip entity = "" then "Entity name cannot be empty"
           else "Entity name too long (max 100 characters)")) := by
      unfold get_projects_attempt
      rw [hval]
    rw [get_projects, tenacityRetry3, hatt]
    simp [PyExc.isRetryable]
  exact ⟨hall api, (hall api).trans (hall api').symm⟩

theorem get_projects_validation_witness :
    get_projects (fun _ => .ok ["p1"]) "" =
      .error (.validationError "Entity name cannot be empty") ∧
    get_projects (fun _ => .ok ["p1"]) "" =
      get_projects (fun _ => .error (.connectionError "boom")) "" := by
  have h := get_projects_validation (fun _ => .ok ["p1"])
    (fun _ => .error (.connectionError "boom")) "" (Or.inl (by decide))
  exact ⟨by simpa using h.1, h.2⟩

/-- A run of get_projects against an api that always raises a plain
ConnectionError whose message mentions the rate limit: the message
contains the substring, yet after retry exhaustion the raw builtin error
is re-raised (tenacity reraise=True), not the RateLimit failure — the
substring classification never sees retryable errors. -/
theorem get_projects_rate_limit_cx :
    pyContains "rate limit" (pyLower "rate limit exceeded") = true ∧
    get_projects (fun _ => .error (.connectionError "rate limit exceeded"))
        "team" =
      .error (.connectionError "rate limit exceeded") ∧
    isRateLimitResult
      (get_projects (fun _ => .error (.connectionError "rate limit exceeded"))
        "team") = false := by
  exact ⟨by decide, rfl, by decide⟩

/-- Claim C2 (corrected): a listing failure whose message contains
"rate limit" (any case) is classified as the RateLimit failure only when
the underlying error is not one of the retried builtin classes and no
earlier classification rule matches (authentication/unauthorized for
get_projects, not found/does not exist for get_runs); it is then raised
immediately, on the first attempt.  A retryable ConnectionError or
TimeoutError is re-raised raw after the retry budget is exhausted,
whatever its message says. -/
theorem get_listing_rate_limit (api : ℕ → Except PyExc (List String))
    (api2 : String → ℕ → ℕ → Except PyExc (List RunHandle))
    (entity project : String) (limit : ℕ) (msg : String)
    (hve : validate_entity entity = .ok ())
    (hvp : validate_project project = .ok ()) :
    ((api 0 = .error (.exc msg) →
        pyContains "rate limit" (pyLower msg) = true →
        pyContains "authentication" (pyLower msg) = false →
        pyContains "unauthorized" (pyLower msg) = false →
        get_projects api entity =
          .error (.wandbRateLimit ("Rate limit exceeded: " ++ msg))) ∧
      (api2 (entity ++ "/" ++ project) limit 0 = .error (.exc msg) →
        pyContains "rate limit" (pyLower msg) = true →
        pyContains "not found" (pyLower msg) = false →
        pyContains "does not exist" (pyLower msg) = false →
        get_runs api2 entity project limit =
          .error (.wandbRateLimit ("Rate limit exceeded: " ++ msg))) ∧
      ((∀ i, api i = .error (.connectionError msg)) →
        get_projects api entity = .error (.connectionError msg))) := by
  refine ⟨?_, ?_, ?_⟩
  · intro hapi hrl hau hun
    have hatt : get_projects_attempt api entity 0 =
        .error (.wandbRateLimit ("Rate limit exceeded: " ++ msg)) := by
      unfold get_projects_attempt
      rw [hve, hapi]
      simp [PyExc.isRetryable, PyExc.msg, hrl, hau, hun]
    rw [get_projects, tenacityRetry3, hatt]
    simp [PyExc.isRetryable]
  · intro hapi hrl hnf hde
    have hatt : get_runs_attempt api2 entity project limit 0 =
        .error (.wandbRateLimit ("Rate limit exceeded: " ++ msg)) := by
      unfold get_runs_attempt
      rw [hve, hvp, hapi]
      simp [PyExc.isRetryable, PyExc.msg, hrl, hnf, hde]
    rw [get_runs, tenacityRetry3, hatt]
    simp [PyExc.isRetryable]
  · intro hapi
    have hatt : ∀ i, get_projects_attempt api entity i =
        .error (.connectionError msg) := by
      intro i
      unfold get_projects_attempt
      rw [hve, hapi]
      simp [PyExc.isRetryable]
    rw [get_projects, tenacityRetry3, hatt 0, hatt 1, hatt 2]
    simp [PyExc.isRetryable]

theorem get_listing_rate_limit_witness :
    get_projects (fun _ => .error (.exc "API Rate Limit hit")) "team" =
      .error (.wandbRateLimit "Rate limit exceeded: API Rate Limit hit") ∧
    get_runs (fun _ _ _ => .error (.exc "API Rate Limit hit")) "team" "proj" 10 =
      .error (.wandbRateLimit "Rate limit exceeded: API Rate Limit hit") ∧
    get_projects (fun _ => .error (.connectionError "rate limit")) "team" =
      .error (.connectionError "rate limit") := by
  have h := get_listing_rate_limit
    (fun _ => .error (.exc "API Rate Limit hit"))
    (fun _ _ _ => .error (.exc "API Rate Limit hit"))
    "team" "proj" 10 "API Rate Limit hit" rfl rfl
  have h2 := get_listing_rate_limit
    (fun _ => .error (.connectionError "rate limit"))
    (fun _ _ _ => .error (.exc "x"))
    "team" "proj" 10 "rate limit" rfl rfl
  exact ⟨h.1 rfl (by decide) (by decide) (by decide),
         h.2.1 rfl (by decide) (by decide) (by decide),
         h2.2.2 (fun _ => rfl)⟩

/-- Claim C4 (confirmed): whatever the text-generation service returns or
raises, and whatever json.loads does on the extracted slice, each of the
four public adapter operations returns a structured value and never lets
an exception out: every call is an ok result. -/
theorem ai_adapter_never_raises
    (loads : String → Except Unit Json) (svc : String → Except PyExc String)
    (cd ac r1 r2 cr bm am : Json) (sr : Option Json) (cdiff : Option String)
    (diff goal : String) :
    (∃ v, analyze_experiment_cluster loads svc cd ac sr = .ok v) ∧
    (∃ v, ai_compare_runs loads svc r1 r2 cdiff = .ok v) ∧
    (∃ v, suggest_experiments loads svc cr goal = .ok v) ∧
    (∃ v, analyze_code_changes loads svc diff bm am = .ok v) := by
  refine ⟨?_, ?_, ?_, ?_⟩
  · exact pyTry_ok_handler _ _
  · exact pyTry_ok_handler _ _
  · exact pyTry_ok_handler _ _
  · exact pyTry_ok_handler _ _

/-- Claim C3 (confirmed): the per-run loop of get_runs_dataframe keeps
exactly the handles whose extraction succeeds, in fetch order; with
exactly one failing handle the table has N-1 rows, and when every handle
fails the table is empty rather than an error (the loop is a total
function: it cannot itself raise). -/
theorem runs_dataframe_partial_failure (runs : List RunHandle) :
    runs_dataframe_rows runs =
      (runs.filter (fun r => !r.broken)).map (fun r => rowOf (runDataOf r)) ∧
    ((runs.filter (fun r => r.broken)).length = 1 →
      (runs_dataframe_rows runs).length = runs.length - 1) ∧
    ((∀ r ∈ runs, r.broken = true) → runs_dataframe_rows runs = []) := by
  refine ⟨runs_rows_eq_filter runs, ?_, ?_⟩
  · intro h1
    rw [runs_rows_eq_filter, List.length_map]
    have hsplit := filter_length_split (fun r => r.broken) runs
    omega
  · intro hall
    rw [runs_rows_eq_filter]
    have : runs.filter (fun r => !r.broken) = [] := by
      rw [List.filter_eq_nil_iff]
      intro r hr
      simp [hall r hr]
    rw [this]
    rfl

theorem runs_dataframe_partial_failure_witness :
    (runs_dataframe_rows
      [⟨"1", "r1", "finished", "t1", "t1", [], [], none, none, [], "", "", false⟩,
       ⟨"2", "r2", "failed", "t2", "t2", [], [], none, none, [], "", "", true⟩,
       ⟨"3", "r3", "finished", "t3", "t3", [], [], none, none, [], "", "", false⟩]).length = 2 ∧
    runs_dataframe_rows
      [⟨"4", "r4", "crashed", "t4", "t4", [], [], none, none, [], "", "", true⟩] = [] := by
  refine ⟨(runs_dataframe_partial_failure _).2.1 (by decide),
    (runs_dataframe_partial_failure _).2.2 ?_⟩
  intro r hr
  simp only [List.mem_singleton] at hr
  rw [hr]

lemma argminAux_lt (l : List ℝ) :
    ∀ (best : ℕ × ℝ) (i : ℕ), best.1 < i → argminAux l best i < i + l.length := by
  induction l with
  | nil =>
    intro best i h
    simpa [argminAux] using h.trans_le (Nat.le_add_right i 0)
  | cons d rest ih =>
    intro best i h
    unfold argminAux
    split
    · have := ih (i, d) (i + 1) (Nat.lt_succ_self i)
      simpa [Nat.add_comm, Nat.add_assoc, Nat.add_left_comm] using this
    · have := ih best (i + 1) (h.trans (Nat.lt_succ_self i))
      simpa [Nat.add_comm, Nat.add_assoc, Nat.add_left_comm] using this

lemma argminIdx_lt (l : List ℝ) (h : l ≠ []) : argminIdx l < l.length := by
  match l, h with
  | d :: rest, _ =>
    have := argminAux_lt rest (0, d) 1 Nat.one_pos
    simpa [argminIdx, Nat.add_comm] using this

lemma kmeansAssign_length (c m : List (List ℝ)) :
    (kmeansAssign c m).length = m.length := by
  simp [kmeansAssign]

lemma kmeansAssign_lt (c m : List (List ℝ)) (hc : c ≠ []) :
    ∀ l ∈ kmeansAssign c m, l < c.length := by
  intro l hl
  simp only [kmeansAssign, List.mem_map] at hl
  obtain ⟨x, _, rfl⟩ := hl
  have h1 : (c.map (fun y => sqDist x y)) ≠ [] := by
    simpa using hc
  have := argminIdx_lt _ h1
  simpa using this

lemma kmeansUpdate_length (k : ℕ) (m : List (List ℝ)) (ls : List ℕ)
    (old : List (List ℝ)) : (kmeansUpdate k m ls old).length = k := by
  simp [kmeansUpdate]

lemma kmeansIter_length (m : List (List ℝ)) (k : ℕ) :
    ∀ (n : ℕ) (cs : List (List ℝ)), cs.length = k →
      (kmeansIter m k n cs).length = k := by
  intro n
  induction n with
  | zero => intro cs h; simpa [kmeansIter] using h
  | succ n ih =>
    intro cs _
    unfold kmeansIter
    exact ih _ (kmeansUpdate_length k m (kmeansAssign cs m) cs)

lemma kmeansFitPredict_spec (k : ℕ) (m : List (List ℝ)) (hk : 0 < k)
    (hkm : k ≤ m.length) :
    (kmeansFitPredict k m).length = m.length ∧
      ∀ l ∈ kmeansFitPredict k m, l < k := by
  have hinit : (m.take k).length = k := by
    simpa using Nat.min_eq_left hkm
  have hcen : (kmeansIter m k 10 (m.take k)).length = k :=
    kmeansIter_length m k 10 (m.take k) hinit
  have hne : kmeansIter m k 10 (m.take k) ≠ [] := by
    intro hnil
    rw [hnil] at hcen
    simp at hcen
    omega
  constructor
  · exact kmeansAssign_length _ m
  · intro l hl
    have := kmeansAssign_lt _ m hne l hl
    rwa [hcen] at this

/-- Claim C5 (confirmed): fit_predict with the kmeans method on a
non-empty feature matrix and a positive configured cluster count returns
exactly one integer label per row, each in the half-open range from 0 to
min(configured count, row count); the count is clamped, not an error. -/
theorem fit_predict_kmeans_label_range (n_clusters : ℕ)
    (features : List (List ℝ)) (hnc : 0 < n_clusters)
    (hne : featSize features ≠ 0) :
    ∃ labels : List Int,
      fit_predict "kmeans" n_clusters features = .ok labels ∧
      labels.length = features.length ∧
      ∀ l ∈ labels, 0 ≤ l ∧ l < ((min n_clusters features.length : ℕ) : Int) := by
  have hlen : features.length ≠ 0 := by
    intro h0
    rw [List.length_eq_zero] at h0
    rw [h0] at hne
    exact hne rfl
  have hk : 0 < min n_clusters features.length :=
    lt_min hnc (Nat.pos_of_ne_zero hlen)
  have hkm : min n_clusters features.length ≤ features.length :=
    Nat.min_le_right _ _
  have hspec := kmeansFitPredict_spec (min n_clusters features.length)
    features hk hkm
  refine ⟨List.map Int.ofNat
    (kmeansFitPredict (min n_clusters features.length) features), ?_, ?_, ?_⟩
  · unfold fit_predict
    rw [if_neg (by push_neg; exact ⟨hne, hlen⟩), if_pos rfl]
  · rw [List.length_map]
    exact hspec.1
  · intro l hl
    simp only [List.mem_map] at hl
    obtain ⟨x, hx, rfl⟩ := hl
    exact ⟨Int.ofNat_nonneg x, Int.ofNat_lt.mpr (hspec.2 x hx)⟩

theorem fit_predict_kmeans_label_range_witness :
    ∃ labels : List Int,
      fit_predict "kmeans" 3 [[(0 : ℝ)], [(1 : ℝ)]] = .ok labels ∧
      labels.length = 2 ∧
      ∀ l ∈ labels, 0 ≤ l ∧ l < ((min 3 2 : ℕ) : Int) := by
  exact fit_predict_kmeans_label_range 3 [[(0 : ℝ)], [(1 : ℝ)]]
    (by decide) (by decide)

lemma lrParts_cases (s : ColStats) :
    lrParts s = [] ∨ lrParts s = ["High learning rate"] ∨
      lrParts s = ["Low learning rate"] := by
  unfold lrParts
  split
  · exact Or.inr (Or.inl rfl)
  · split
    · exact Or.inr (Or.inr rfl)
    · exact Or.inl rfl

/-- Claim C6 (confirmed): the characterisation of a summary whose stats
give accuracy mean 0.95 and loss mean 0.05 contains both threshold
phrases, and the characterisation of a summary with none of the
recognised feature names is exactly the generic cluster label. -/
theorem characterize_thresholds :
    (∀ (cid : Int) (stats : List (String × ColStats)) (sacc sloss : ColStats),
      stats.lookup "accuracy" = some sacc → sacc.mean = some (19 / 20) →
      stats.lookup "loss" = some sloss → sloss.mean = some (1 / 20) →
      strContains (characterizeSummary cid stats) "High accuracy" ∧
      strContains (characterizeSummary cid stats) "Well converged") ∧
    (∀ (cid : Int) (stats : List (String × ColStats)),
      stats.lookup "accuracy" = none → stats.lookup "loss" = none →
      stats.lookup "config_learning_rate" = none →
      stats.lookup "learning_rate" = none →
      characterizeSummary cid stats = "Cluster " ++ toString cid) := by
  constructor
  · intro cid stats sacc sloss hacc haccm hloss hlossm
    have hchar : ∃ rest : List String,
        (rest = [] ∨ rest = ["High learning rate"] ∨
          rest = ["Low learning rate"]) ∧
        characterizeSummary cid stats =
          String.intercalate ", " ("High accuracy" :: "Well converged" :: rest) := by
      unfold characterizeSummary
      rw [hacc, hloss]
      have h1 : oGtQ (some ((19 : ℚ) / 20)) (9 / 10) = true := by
        simp only [oGtQ, decide_eq_true_eq]
        norm_num
      have h2 : oLtQ (some ((1 : ℚ) / 20)) (1 / 10) = true := by
        simp only [oLtQ, decide_eq_true_eq]
        norm_num
      simp only [haccm, hlossm, h1, h2, if_true]
      cases hcfg : stats.lookup "config_learning_rate" with
      | some s =>
        refine ⟨lrParts s, lrParts_cases s, ?_⟩
        simp
      | none =>
        cases hlr : stats.lookup "learning_rate" with
        | some s =>
          refine ⟨lrParts s, lrParts_cases s, ?_⟩
          simp
        | none =>
          refine ⟨[], Or.inl rfl, ?_⟩
          simp
    obtain ⟨rest, hcases, heq⟩ := hchar
    rw [heq]
    rcases hcases with h | h | h <;> rw [h]
    · exact ⟨⟨"", ", Well converged", by decide⟩,
             ⟨"High accuracy, ", "", by decide⟩⟩
    · exact ⟨⟨"", ", Well converged, High learning rate", by decide⟩,
             ⟨"High accuracy, ", ", High learning rate", by decide⟩⟩
    · exact ⟨⟨"", ", Well converged, Low learning rate", by decide⟩,
             ⟨"High accuracy, ", ", Low learning rate", by decide⟩⟩
  · intro cid stats h1 h2 h3 h4
    unfold characterizeSummary
    rw [h1, h2, h3, h4]
    simp

theorem characterize_thresholds_witness :
    (strContains (characterizeSummary 0 exampleStats) "High accuracy" ∧
     strContains (characterizeSummary 0 exampleStats) "Well converged") ∧
    characterizeSummary 7 [] = "Cluster " ++ toString (7 : Int) := by
  exact ⟨characterize_thresholds.1 0 exampleStats _ _ rfl rfl rfl rfl,
         characterize_thresholds.2 7 [] rfl rfl rfl rfl⟩

lemma map_const_sum {α : Type} (a : List α) (n : ℕ) :
    (a.map (fun _ => n)).sum = a.length * n := by
  induction a with
  | nil => simp
  | cons x t ih => simp [ih, Nat.succ_mul, Nat.add_comm]

lemma sum_map_len_range {α β : Type} (a : List α) (n : ℕ) (g : α → ℕ → β) :
    (a.map (fun r => ((List.range n).map (g r)).length)).sum = a.length * n := by
  have h : (fun r => ((List.range n).map (g r)).length) =
      fun _ : α => n := by
    funext r
    simp
  rw [h, map_const_sum]

lemma featSize_scaleMatrix (a : List (List ℚ)) (n : ℕ) :
    featSize (scaleMatrix a n) = a.length * n := by
  unfold featSize scaleMatrix
  rw [List.map_map]
  exact sum_map_len_range a n _

lemma imputedMatrix_length (df : DataFrame) (mc : List String) :
    (imputedMatrix df mc).length = df.nrows := by
  simp [imputedMatrix]

lemma scaleMatrix_length (a : List (List ℚ)) (n : ℕ) :
    (scaleMatrix a n).length = a.length := by
  simp [scaleMatrix]

lemma prepare_featSize_ne (df : DataFrame) (mcols : Option (List String))
    (hp : prepare_features df mcols ≠ []) :
    featSize (prepare_features df mcols) ≠ 0 := by
  by_cases he : df.isEmpty
  · exact absurd (by unfold prepare_features; rw [if_pos he]) hp
  · by_cases hm : metricColsOf df mcols = []
    · refine absurd ?_ hp
      unfold prepare_features
      rw [if_neg he, if_pos hm]
    · unfold prepare_features
      rw [if_neg he, if_neg hm, featSize_scaleMatrix, imputedMatrix_length]
      have h1 : df.nrows ≠ 0 := by
        intro h0
        exact he (by simp [DataFrame.isEmpty, h0])
      have h2 : (metricColsOf df mcols).length ≠ 0 :=
        fun h0 => hm (List.length_eq_zero.mp h0)
      exact Nat.mul_ne_zero h1 h2

/-- Claim C1 (corrected): cluster_runs leaves the caller frame unchanged
when the frame is empty or when clustering actually runs (the copy
branch), but when the frame is non-empty and feature preparation yields
an empty matrix the source assigns the all-zero cluster column on the
caller frame itself and returns that same frame — the one case in which
the input is mutated. -/
theorem cluster_runs_frame_effect (method : String) (nc : ℕ)
    (df : DataFrame) (mcols : Option (List String)) :
    (df.isEmpty = true → cluster_runs method nc df mcols = (.ok df, df)) ∧
    (df.isEmpty = false → prepare_features df mcols = [] →
      cluster_runs method nc df mcols =
        (.ok (df.setCol "cluster" .int64 (List.replicate df.nrows (.num 0))),
         df.setCol "cluster" .int64 (List.replicate df.nrows (.num 0)))) ∧
    (prepare_features df mcols ≠ [] →
      (cluster_runs method nc df mcols).2 = df) := by
  refine ⟨?_, ?_, ?_⟩
  · intro he
    unfold cluster_runs
    rw [if_pos he]
  · intro he hp
    unfold cluster_runs
    rw [if_neg (by simp [he]), hp]
    simp [featSize]
  · intro hp
    have he : df.isEmpty = false := by
      cases hb : df.isEmpty with
      | true => exact absurd (by unfold prepare_features; rw [if_pos hb]) hp
      | false => rfl
    unfold cluster_runs
    rw [if_neg (by simp [he]), if_neg (prepare_featSize_ne df mcols hp)]
    cases hfp : fit_predict method nc (prepare_features df mcols) with
    | error e => simp [hfp]
    | ok labels => simp [hfp]

/-- A one-row frame with a single non-numeric column: feature preparation
is empty, so cluster_runs adds the cluster column to the caller frame
itself — the claimed no-mutation invariant fails on this input. -/
theorem cluster_runs_mutates_cx :
    (cluster_runs "kmeans" 3 objOnlyFrame none).2 ≠ objOnlyFrame ∧
    (cluster_runs "kmeans" 3 objOnlyFrame none).2 =
      ⟨[⟨"name", .object, [.obj "run1"]⟩, ⟨"cluster", .int64, [.num 0]⟩]⟩ := by
  exact ⟨by decide, by decide⟩

theorem cluster_runs_frame_effect_witness :
    cluster_runs "kmeans" 3 (⟨[]⟩ : DataFrame) none =
      (.ok ⟨[]⟩, (⟨[]⟩ : DataFrame)) ∧
    (cluster_runs "kmeans" 3 objOnlyFrame none).2 =
      objOnlyFrame.setCol "cluster" .int64
        (List.replicate objOnlyFrame.nrows (.num 0)) ∧
    (cluster_runs "kmeans" 3
      (⟨[⟨"accuracy", .float64, [.num (9 / 10), .num (1 / 2)]⟩]⟩ : DataFrame)
      none).2 =
      ⟨[⟨"accuracy", .float64, [.num (9 / 10), .num (1 / 2)]⟩]⟩ := by
  refine ⟨(cluster_runs_frame_effect "kmeans" 3 ⟨[]⟩ none).1 rfl, ?_, ?_⟩
  · have h := (cluster_runs_frame_effect "kmeans" 3 objOnlyFrame none).2.1
      rfl rfl
    rw [h]
  · refine (cluster_runs_frame_effect "kmeans" 3 _ none).2.2 ?_
    have hpf : prepare_features
        (⟨[⟨"accuracy", .float64, [.num (9 / 10), .num (1 / 2)]⟩]⟩ : DataFrame)
        none =
        scaleMatrix (imputedMatrix
          ⟨[⟨"accuracy", .float64, [.num (9 / 10), .num (1 / 2)]⟩]⟩
          ["accuracy"]) 1 := rfl
    rw [hpf]
    intro h0
    have := congrArg List.length h0
    rw [scaleMatrix_length, imputedMatrix_length] at this
    simp [DataFrame.nrows] at this

lemma lookup_map_replace (row : Row) (k : String) (v : PyVal)
    (h : ∃ p ∈ row, p.1 = k) :
    (row.map (fun p => if p.1 == k then (k, v) else p)).lookup k = some v := by
  induction row with
  | nil => simp at h
  | cons p t ih =>
    simp only [List.map_cons]
    by_cases hp : p.1 = k
    · rw [if_pos (beq_iff_eq.mpr hp)]
      simp [List.lookup]
    · have h' : ∃ q ∈ t, q.1 = k := by
        rcases h with ⟨q, hq, hqk⟩
        rcases List.mem_cons.mp hq with rfl | hqt
        · exact absurd hqk hp
        · exact ⟨q, hqt, hqk⟩
      have h2 : (k == p.1) = false :=
        beq_eq_false_iff_ne.mpr (fun hh => hp hh.symm)
      rw [if_neg (by simp [beq_eq_false_iff_ne.mpr hp])]
      simp only [List.lookup, h2]
      exact ih h'

lemma lookup_map_replace_other (row : Row) (k k' : String) (v : PyVal)
    (hk : k' ≠ k) :
    (row.map (fun p => if p.1 == k then (k, v) else p)).lookup k' =
      row.lookup k' := by
  induction row with
  | nil => rfl
  | cons p t ih =>
    simp only [List.map_cons]
    by_cases hp : p.1 = k
    · have h2 : (k' == k) = false := beq_eq_false_iff_ne.mpr hk
      have h3 : (k' == p.1) = false :=
        beq_eq_false_iff_ne.mpr (fun hh => hk (hh.trans hp))
      rw [if_pos (beq_iff_eq.mpr hp)]
      simp only [List.lookup, h2, h3]
      exact ih
    · rw [if_neg (by simp [beq_eq_false_iff_ne.mpr hp])]
      simp only [List.lookup, ih]

lemma lookup_append_ne (row : Row) (k k' : String) (v : PyVal)
    (hk : k' ≠ k) :
    ((row ++ [(k, v)]).lookup k') = row.lookup k' := by
  induction row with
  | nil => simp [List.lookup, beq_eq_false_iff_ne.mpr hk]
  | cons p t ih => simp [List.lookup, ih]

lemma lookup_append_self (row : Row) (k : String) (v : PyVal)
    (h : ∀ p ∈ row, p.1 ≠ k) :
    ((row ++ [(k, v)]).lookup k) = some v := by
  induction row with
  | nil => simp [List.lookup]
  | cons p t ih =>
    have h1 : (k == p.1) = false :=
      beq_eq_false_iff_ne.mpr (fun hh => (h p (by simp)) hh.symm)
    simp only [List.cons_append, List.lookup, h1]
    exact ih (fun q hq => h q (by simp [hq]))

lemma lookup_addRowKey_self (row : Row) (k : String) (v : PyVal) :
    (addRowKey row k v).lookup k = some v := by
  unfold addRowKey
  split
  · next hcond =>
    apply lookup_map_replace
    simpa [List.any_eq_true, beq_iff_eq] using hcond
  · next hcond =>
    apply lookup_append_self
    intro p hp hpk
    exact hcond (List.any_eq_true.mpr ⟨p, hp, beq_iff_eq.mpr hpk⟩)

lemma lookup_addRowKey_other (row : Row) (k k' : String) (v : PyVal)
    (hk : k' ≠ k) :
    (addRowKey row k v).lookup k' = row.lookup k' := by
  unfold addRowKey
  split
  · exact lookup_map_replace_other row k k' v hk
  · exact lookup_append_ne row k k' v hk

lemma addPairs_lookup_untouched (cond : String × PyVal → Bool)
    (keyf : String × PyVal → String) (k : String)
    (l : List (String × PyVal)) (row : Row)
    (h : ∀ kv ∈ l, cond kv = true → keyf kv ≠ k) :
    (addPairs cond keyf row l).lookup k = row.lookup k := by
  induction l generalizing row with
  | nil => rfl
  | cons kv rest ih =>
    unfold addPairs
    by_cases hc : cond kv = true
    · rw [if_pos hc, ih _ (fun q hq hcq => h q (by simp [hq]) hcq),
        lookup_addRowKey_other _ _ _ _ (fun hh => h kv (by simp) hc hh.symm)]
    · rw [if_neg hc]
      exact ih _ (fun q hq hcq => h q (by simp [hq]) hcq)

lemma addPairs_lookup_found (cond : String × PyVal → Bool)
    (keyf : String × PyVal → String) (l₁ l₂ : List (String × PyVal))
    (kv : String × PyVal) (row : Row) (hc : cond kv = true)
    (h2 : ∀ kv' ∈ l₂, cond kv' = true → keyf kv' ≠ keyf kv) :
    (addPairs cond keyf row (l₁ ++ kv :: l₂)).lookup (keyf kv) =
      some kv.2 := by
  induction l₁ generalizing row with
  | nil =>
    simp only [List.nil_append]
    unfold addPairs
    rw [if_pos hc, addPairs_lookup_untouched cond keyf _ l₂ _ h2,
      lookup_addRowKey_self]
  | cons kv' rest ih =>
    simp only [List.cons_append]
    unfold addPairs
    exact ih _

lemma addRowKey_keys (P : String → Prop) (row : Row) (k : String) (v : PyVal)
    (hrow : ∀ p ∈ row, P p.1) (hk : P k) :
    ∀ p ∈ addRowKey row k v, P p.1 := by
  unfold addRowKey
  split
  · intro p hp
    rw [List.mem_map] at hp
    obtain ⟨q, hq, rfl⟩ := hp
    by_cases hq1 : (q.1 == k) = true
    · simp only [hq1, if_true]
      exact hk
    · simp only [hq1, Bool.false_eq_true, if_false]
      exact hrow q hq
  · intro p hp
    rcases List.mem_append.mp hp with h | h
    · exact hrow p h
    · simp only [List.mem_singleton] at h
      rw [h]
      exact hk

lemma addPairs_keys (cond : String × PyVal → Bool)
    (keyf : String × PyVal → String) (P : String → Prop)
    (l : List (String × PyVal)) (row : Row)
    (hrow : ∀ p ∈ row, P p.1)
    (hl : ∀ kv ∈ l, cond kv = true → P (keyf kv)) :
    ∀ p ∈ addPairs cond keyf row l, P p.1 := by
  induction l generalizing row with
  | nil => exact hrow
  | cons kv rest ih =>
    unfold addPairs
    by_cases hc : cond kv = true
    · rw [if_pos hc]
      exact ih _ (addRowKey_keys P row (keyf kv) kv.2 hrow (hl kv (by simp) hc))
        (fun q hq => hl q (by simp [hq]))
    · rw [if_neg hc]
      exact ih _ hrow (fun q hq => hl q (by simp [hq]))

lemma config_not_underscore (s : String) :
    pyStartsWith ("config_" ++ s) "_" = false := by
  unfold pyStartsWith
  have h : ("config_" ++ s).data = 'c' :: ("onfig_" ++ s).data := by
    rw [String.data_append, String.data_append]
    rfl
  rw [h]
  rfl

lemma config_key_ne_runtime (s : String) : "config_" ++ s ≠ "runtime" := by
  intro h
  have hd := congrArg String.data h
  rw [String.data_append] at hd
  have hlen := congrArg List.length hd
  rw [List.length_append] at hlen
  have h7 : ("config_".data).length = 7 := rfl
  have h7b : ("runtime".data).length = 7 := rfl
  rw [h7, h7b] at hlen
  have h0 : s.data.length = 0 := by omega
  rw [List.length_eq_zero.mp h0, List.append_nil] at hd
  exact absurd hd (by decide)

lemma config_key_inj (a b : String) (h : "config_" ++ a = "config_" ++ b) :
    a = b := by
  have hd := congrArg String.data h
  rw [String.data_append, String.data_append] at hd
  have hab := List.append_cancel_left hd
  cases a with
  | mk da =>
    cases b with
    | mk db =>
      simp only at hab
      rw [hab]

/-- Claim C9 (confirmed): for a readable run, no column of its table row
has a key starting with an underscore; a summary key that does not start
with an underscore and holds an int/float value (not shadowed later)
becomes a metric column with that value; and the required runtime column
carries the underscore-runtime summary value, defaulting to 0. -/
theorem run_table_underscore_metrics (r : RunHandle) (k : String)
    (v : PyVal) (l₁ l₂ : List (String × PyVal))
    (hsum : r.summary = l₁ ++ (k, v) :: l₂)
    (hk : pyStartsWith k "_" = false)
    (hnum : isNumericPy v = true)
    (hl₂ : ∀ kv ∈ l₂, kv.1 ≠ k)
    (hcfg : ∀ kv ∈ r.config, isScalarPy kv.2 = true → ("config_" ++ kv.1) ≠ k)
    (hrt : ∀ kv ∈ r.summary, kv.1 ≠ "runtime") :
    (∀ p ∈ rowOf (runDataOf r), pyStartsWith p.1 "_" = false) ∧
    (rowOf (runDataOf r)).lookup k = some v ∧
    (rowOf (runDataOf r)).lookup "runtime" =
      some ((r.summary.lookup "_runtime").getD (.int 0)) := by
  refine ⟨?_, ?_, ?_⟩
  · unfold rowOf
    refine addPairs_keys _ _ (fun s => pyStartsWith s "_" = false) _ _ ?_ ?_
    · refine addPairs_keys _ _ (fun s => pyStartsWith s "_" = false) _ _ ?_ ?_
      · intro p hp
        simp only [baseRow, List.mem_cons, List.not_mem_nil, or_false] at hp
        rcases hp with rfl | rfl | rfl | rfl | rfl | rfl | rfl <;> rfl
      · intro kv _ hc
        simp only [summaryCond, Bool.and_eq_true, Bool.not_eq_true'] at hc
        simpa [summaryKey] using hc.1
    · intro kv _ _
      exact config_not_underscore kv.1
  · unfold rowOf
    rw [addPairs_lookup_untouched configCond configKey k (runDataOf r).config
      (addPairs summaryCond summaryKey (baseRow (runDataOf r))
        (runDataOf r).summary)
      (fun kv hkv hc => hcfg kv hkv hc)]
    have hx : (runDataOf r).summary = l₁ ++ (k, v) :: l₂ := hsum
    rw [hx]
    exact addPairs_lookup_found summaryCond summaryKey l₁ l₂ (k, v) _
      (by simp [summaryCond, hk, hnum]) (fun kv' hkv' _ => hl₂ kv' hkv')
  · unfold rowOf
    rw [addPairs_lookup_untouched configCond configKey "runtime"
      (runDataOf r).config
      (addPairs summaryCond summaryKey (baseRow (runDataOf r))
        (runDataOf r).summary)
      (fun kv _ _ hh => config_key_ne_runtime kv.1 hh)]
    rw [addPairs_lookup_untouched summaryCond summaryKey "runtime"
      (runDataOf r).summary (baseRow (runDataOf r))
      (fun kv hkv _ => hrt kv hkv)]
    rfl

theorem run_table_underscore_metrics_witness :
    (rowOf (runDataOf exampleRun)).lookup "accuracy" =
      some (.float (19 / 20)) ∧
    (rowOf (runDataOf exampleRun)).lookup "runtime" = some (.int 0) := by
  have h := run_table_underscore_metrics exampleRun "accuracy"
    (.float (19 / 20)) [("_step", .int 5)] [("flag", .bool true)]
    rfl (by decide) rfl (by decide) (by decide) (by decide)
  exact ⟨h.2.1, h.2.2⟩

/-- Claim C10 (confirmed): a boolean summary value passes the numeric
isinstance check (bool is a subclass of int), so it becomes a metric
column holding the boolean; scalar config values appear under the
namespaced config_ column name. -/
theorem run_table_bool_metric_and_config (r : RunHandle) (k ck : String)
    (b : Bool) (cv : PyVal) (l₁ l₂ m₁ m₂ : List (String × PyVal))
    (hsum : r.summary = l₁ ++ (k, .bool b) :: l₂)
    (hk : pyStartsWith k "_" = false)
    (hl₂ : ∀ kv ∈ l₂, kv.1 ≠ k)
    (hcfg : ∀ kv ∈ r.config, isScalarPy kv.2 = true → ("config_" ++ kv.1) ≠ k)
    (hconf : r.config = m₁ ++ (ck, cv) :: m₂)
    (hscalar : isScalarPy cv = true)
    (hm₂ : ∀ kv ∈ m₂, kv.1 ≠ ck) :
    (rowOf (runDataOf r)).lookup k = some (.bool b) ∧
    (rowOf (runDataOf r)).lookup ("config_" ++ ck) = some cv := by
  constructor
  · unfold rowOf
    rw [addPairs_lookup_untouched configCond configKey k (runDataOf r).config
      (addPairs summaryCond summaryKey (baseRow (runDataOf r))
        (runDataOf r).summary)
      (fun kv hkv hc => hcfg kv hkv hc)]
    have hx : (runDataOf r).summary = l₁ ++ (k, PyVal.bool b) :: l₂ := hsum
    rw [hx]
    exact addPairs_lookup_found summaryCond summaryKey l₁ l₂ (k, .bool b) _
      (by simp [summaryCond, hk, isNumericPy]) (fun kv' hkv' _ => hl₂ kv' hkv')
  · unfold rowOf
    have hx : (runDataOf r).config = m₁ ++ (ck, cv) :: m₂ := hconf
    rw [hx]
    exact addPairs_lookup_found configCond configKey m₁ m₂ (ck, cv) _
      (by simpa [configCond] using hscalar)
      (fun kv' hkv' _ hh => hm₂ kv' hkv' (config_key_inj _ _ hh))

theorem run_table_bool_metric_and_config_witness :
    (rowOf (runDataOf exampleRun)).lookup "flag" = some (.bool true) ∧
    (rowOf (runDataOf exampleRun)).lookup "config_lr" =
      some (.float (1 / 1000)) := by
  exact run_table_bool_metric_and_config exampleRun "flag" "lr" true
    (.float (1 / 1000)) [("_step", .int 5), ("accuracy", .float (19 / 20))]
    [] [] [("optimizer", .str "adam")]
    rfl (by decide) (by decide) (by decide) rfl rfl (by decide)

lemma dedupFirst_subset (l : List Entry) : ∀ x ∈ dedupFirst l, x ∈ l := by
  have hgen : ∀ (l : List Entry) (acc : List Entry) (x : Entry),
      x ∈ l.foldl (fun acc x => if acc.contains x then acc else acc ++ [x]) acc →
      x ∈ acc ∨ x ∈ l := by
    intro l
    induction l with
    | nil => intro acc x hx; exact Or.inl hx
    | cons a t ih =>
      intro acc x hx
      rcases ih _ x hx with h | h
      · by_cases hc : a ∈ acc
        · have hcb : acc.contains a = true := List.elem_eq_true_of_mem hc
          simp only [hcb, if_true] at h
          exact Or.inl h
        · have hcb : acc.contains a = false := by
            simpa using hc
          simp only [hcb, Bool.false_eq_true, if_false, List.mem_append,
            List.mem_singleton] at h
          rcases h with h' | h'
          · exact Or.inl h'
          · exact Or.inr (by simp [h'])
      · exact Or.inr (by simp [h])
  intro x hx
  rcases hgen l [] x hx with h | h
  · simp at h
  · exact h

lemma getD_map_lt {α β : Type} (f : α → β) (l : List α) (i : ℕ) (d : β)
    (d' : α) (h : i < l.length) : (l.map f).getD i d = f (l.getD i d') := by
  rw [List.getD_eq_getElem?_getD, List.getD_eq_getElem?_getD,
    List.getElem?_map, List.getElem?_eq_getElem h]
  simp

lemma filterMap_num (g : ℕ → ℚ) (idxs : List ℕ) :
    (idxs.map (fun i => Entry.num (g i))).filterMap Entry.toQ =
      idxs.map g := by
  rw [List.filterMap_map]
  exact List.filterMap_eq_map _ ▸ rfl

lemma entryToInt_intCast (l : Int) : entryToInt (.num (l : ℚ)) = l := by
  simp [entryToInt, Rat.num_intCast, Rat.den_intCast]

lemma groupVals_eq_idx (qs : List ℚ) (labels : List Int) (cid : Int) :
    qs.length = labels.length →
    ((List.range qs.length).filter
        (fun i => labels.getD i 0 == cid)).map (fun i => qs.getD i 0) =
      groupVals qs labels cid := by
  induction qs generalizing labels with
  | nil => intro h; rfl
  | cons q qt ih =>
    intro h
    cases labels with
    | nil => simp at h
    | cons l lt =>
      have hlen : qt.length = lt.length := by simpa using h
      rw [List.length_cons, List.range_succ_eq_map]
      rw [List.filter_cons]
      have htail : (List.filter (fun i => (l :: lt).getD i 0 == cid)
          ((List.range qt.length).map (fun i => i + 1))) =
          ((List.range qt.length).filter
            (fun i => lt.getD i 0 == cid)).map (fun i => i + 1) := by
        rw [List.filter_map]
        rfl
      have hgv : groupVals (q :: qt) (l :: lt) cid =
          (if (l == cid) = true then [q] else []) ++ groupVals qt lt cid := by
        unfold groupVals
        rw [List.zip_cons_cons, List.filter_cons]
        by_cases hb : (l == cid) = true
        · simp [hb]
        · simp [hb]
      rw [hgv]
      by_cases hb : (l == cid) = true
      · have hc : ((l :: lt).getD 0 0 == cid) = true := hb
        rw [if_pos hc]
        rw [List.map_cons, htail, List.map_map]
        have : ((List.range qt.length).filter
            (fun i => lt.getD i 0 == cid)).map
              ((fun i => (q :: qt).getD i 0) ∘ (fun i => i + 1)) =
            ((List.range qt.length).filter
              (fun i => lt.getD i 0 == cid)).map (fun i => qt.getD i 0) := rfl
        rw [this, ih lt hlen]
        simp [beq_iff_eq.mp hb]
      · have hc : ¬((l :: lt).getD 0 0 == cid) = true := hb
        rw [if_neg hc]
        rw [htail, List.map_map]
        have : ((List.range qt.length).filter
            (fun i => lt.getD i 0 == cid)).map
              ((fun i => (q :: qt).getD i 0) ∘ (fun i => i + 1)) =
            ((List.range qt.length).filter
              (fun i => lt.getD i 0 == cid)).map (fun i => qt.getD i 0) := rfl
        rw [this, ih lt hlen]
        have hne : l ≠ cid := fun hh => hb (beq_iff_eq.mpr hh)
        simp [hne]

lemma filter_and_split {α : Type} (p q : α → Bool) (l : List α) :
    l.filter (fun a => p a && q a) = (l.filter p).filter q := by
  induction l with
  | nil => rfl
  | cons a t ih =>
    by_cases hp : p a = true <;> by_cases hq : q a = true <;>
      simp [List.filter_cons, hp, hq, ih]

lemma find?_name_of_mem (cols : List Column) (c : Column)
    (hmem : c ∈ cols) (hnodup : (cols.map Column.name).Nodup) :
    cols.find? (fun col => col.name == c.name) = some c := by
  induction cols with
  | nil => simp at hmem
  | cons d rest ih =>
    rcases List.mem_cons.mp hmem with rfl | hmem'
    · simp [List.find?]
    · have hdc : d.name ≠ c.name := by
        intro hh
        have h1 : c.name ∈ rest.map Column.name :=
          List.mem_map.mpr ⟨c, hmem', rfl⟩
        have h2 := (List.nodup_cons.mp hnodup).1
        exact h2 (hh ▸ h1)
      have hb : (d.name == c.name) = false := beq_eq_false_iff_ne.mpr hdc
      simp only [List.find?, hb]
      exact ih hmem' (List.nodup_cons.mp hnodup).2

lemma find?_append_none {α : Type} (p : α → Bool) (l₁ l₂ : List α)
    (h : l₁.find? p = none) : (l₁ ++ l₂).find? p = l₂.find? p := by
  induction l₁ with
  | nil => rfl
  | cons a t ih =>
    simp only [List.find?] at h ⊢
    cases hp : p a with
    | true => rw [hp] at h; simp at h
    | false =>
      rw [hp] at h
      exact ih h

lemma int_cast_beq (a b : Int) : (((a : ℚ)) == ((b : ℚ))) = (a == b) := by
  by_cases h : a = b
  · simp [h]
  · have h2 : ((a : ℚ)) ≠ ((b : ℚ)) := fun hh => h (by exact_mod_cast hh)
    simp [beq_eq_false_iff_ne.mpr h, beq_eq_false_iff_ne.mpr h2]

lemma get_cluster_summary_eq (df' : DataFrame) (ces : List Entry)
    (hhas : df'.hasCol "cluster" = true)
    (hget : df'.getCol "cluster" = some ⟨"cluster", .int64, ces⟩)
    (hemp : df'.isEmpty = false) :
    get_cluster_summary df' = (dedupFirst ces).map (fun cv =>
      let idxs := (List.range df'.nrows).filter
        (fun i => entryEqPy (ces.getD i .nan) cv)
      (entryToInt cv,
       ⟨idxs.length,
        (match df'.getCol "name" with
         | some cn => idxs.map (fun i => entryStr (cn.entries.getD i .nan))
         | none => []),
        ((df'.cols.filter (fun col => isNumericDtype col.dtype)).filter
          (fun col => col.name != "cluster")).map
          (fun col =>
            (col.name, colStatsOf (idxs.map (fun i => col.entries.getD i .nan))))⟩)) := by
  unfold get_cluster_summary
  rw [if_neg (by simp [hhas, hemp]), hget]

/-- Claim C8 (confirmed): for a run table with a single numeric feature
column, composing the summariser after cluster_runs reproduces the exact
arithmetic mean, minimum and maximum of that column inside every
cluster: each summary entry's stats for the column agree with direct
arithmetic on the values of the rows carrying that cluster label. -/
theorem summarize_cluster_roundtrip (df : DataFrame) (nc : ℕ) (c : Column)
    (qs : List ℚ)
    (hwf : df.wf = true)
    (hnodup : (df.cols.map Column.name).Nodup)
    (hnum1 : df.cols.filter (fun col => isNumericDtype col.dtype) = [c])
    (hexc : exclude_cols.contains c.name = false)
    (hcne : c.name ≠ "cluster")
    (hnocl : df.hasCol "cluster" = false)
    (hqs : c.entries = qs.map Entry.num)
    (hne : df.isEmpty = false)
    (hnc : 0 < nc) :
    ∃ labels : List Int,
      cluster_runs "kmeans" nc df none =
        (.ok (df.setCol "cluster" .int64
          (labels.map (fun l : Int => Entry.num (l : ℚ)))), df) ∧
      labels.length = df.nrows ∧
      ∀ p ∈ get_cluster_summary
          (df.setCol "cluster" .int64
            (labels.map (fun l : Int => Entry.num (l : ℚ)))),
        ∃ st : ColStats,
          p.2.stats.lookup c.name = some st ∧
          groupVals qs labels p.1 ≠ [] ∧
          st.mean = some ((groupVals qs labels p.1).sum /
            ((groupVals qs labels p.1).length : ℚ)) ∧
          st.min = listMinQ (groupVals qs labels p.1) ∧
          st.max = listMaxQ (groupVals qs labels p.1) := by
  have hcmem : c ∈ df.cols := by
    have h1 : c ∈ df.cols.filter (fun col => isNumericDtype col.dtype) := by
      rw [hnum1]
      simp
    exact List.mem_of_mem_filter h1
  have hget : df.getCol c.name = some c :=
    find?_name_of_mem df.cols c hcmem hnodup
  have hhas : df.hasCol c.name = true := by
    simp [DataFrame.hasCol, hget]
  have hnrows0 : df.nrows ≠ 0 := by
    intro h0
    rw [DataFrame.isEmpty] at hne
    simp [h0] at hne
  have hclen : c.entries.length = df.nrows := by
    have hall := List.all_eq_true.mp hwf c hcmem
    simpa using hall
  have hqslen : qs.length = df.nrows := by
    rw [hqs, List.length_map] at hclen
    exact hclen
  have hmc : metricColsOf df none = [c.name] := by
    unfold metricColsOf
    have h1 : df.cols.filter
        (fun col => isNumericDtype col.dtype &&
          !exclude_cols.contains col.name) = [c] := by
      rw [filter_and_split, hnum1]
      have hexc2 : c.name ∉ exclude_cols := by simpa using hexc
      simp [List.filter_cons, hexc2]
    simp only [h1]
    simp [hhas]
  have hpf : prepare_features df none =
      scaleMatrix (imputedMatrix df [c.name]) 1 := by
    unfold prepare_features
    rw [if_neg (by simp [hne]), hmc]
    simp
  have hflen : (prepare_features df none).length = df.nrows := by
    rw [hpf, scaleMatrix_length, imputedMatrix_length]
  have hfs : featSize (prepare_features df none) ≠ 0 := by
    rw [hpf, featSize_scaleMatrix, imputedMatrix_length]
    simpa using hnrows0
  have hkpos : 0 < min nc (prepare_features df none).length := by
    refine lt_min hnc ?_
    rw [hflen]
    exact Nat.pos_of_ne_zero hnrows0
  have hspec := kmeansFitPredict_spec
    (min nc (prepare_features df none).length)
    (prepare_features df none) hkpos (Nat.min_le_right _ _)
  refine ⟨List.map Int.ofNat (kmeansFitPredict
    (min nc (prepare_features df none).length)
    (prepare_features df none)), ?_, ?_, ?_⟩
  · have hfp : fit_predict "kmeans" nc (prepare_features df none) =
        .ok (List.map Int.ofNat (kmeansFitPredict
          (min nc (prepare_features df none).length)
          (prepare_features df none))) := by
      unfold fit_predict
      rw [if_neg (by
        push_neg
        exact ⟨hfs, by rw [hflen]; exact hnrows0⟩)]
      rfl
    simp only [cluster_runs]
    rw [if_neg (by simp [hne]), if_neg hfs, hfp]
  · rw [List.length_map, hspec.1, hflen]
  · intro p hp
    have hlablen : (List.map Int.ofNat (kmeansFitPredict
        (min nc (prepare_features df none).length)
        (prepare_features df none))).length = df.nrows := by
      rw [List.length_map, hspec.1, hflen]
    generalize hlab : List.map Int.ofNat (kmeansFitPredict
      (min nc (prepare_features df none).length)
      (prepare_features df none)) = labels at hp hlablen ⊢
    have hsetcol : df.setCol "cluster" .int64
        (labels.map (fun l : Int => Entry.num (l : ℚ))) =
        ⟨df.cols ++ [⟨"cluster", .int64,
          labels.map (fun l : Int => Entry.num (l : ℚ))⟩]⟩ := by
      unfold DataFrame.setCol
      rw [if_neg (by simp [hnocl])]
    rw [hsetcol] at hp
    obtain ⟨c0, rest, hcols⟩ : ∃ c0 rest, df.cols = c0 :: rest := by
      cases hcase : df.cols with
      | nil => exact absurd (by simp [DataFrame.nrows, hcase]) hnrows0
      | cons c0 rest => exact ⟨c0, rest, rfl⟩
    have hnrows' : (⟨df.cols ++ [⟨"cluster", .int64,
        labels.map (fun l : Int => Entry.num (l : ℚ))⟩]⟩ : DataFrame).nrows =
        df.nrows := by
      simp [DataFrame.nrows, hcols]
    have hfind0 : df.cols.find? (fun col => col.name == "cluster") = none := by
      have h1 := hnocl
      unfold DataFrame.hasCol DataFrame.getCol at h1
      cases hfind : df.cols.find? (fun col => col.name == "cluster") with
      | none => rfl
      | some x =>
        rw [hfind] at h1
        simp at h1
    have hgetcl : (⟨df.cols ++ [⟨"cluster", .int64,
        labels.map (fun l : Int => Entry.num (l : ℚ))⟩]⟩ : DataFrame).getCol
          "cluster" =
        some ⟨"cluster", .int64, labels.map (fun l : Int => Entry.num (l : ℚ))⟩ := by
      unfold DataFrame.getCol
      show (df.cols ++ [_]).find? _ = _
      rw [find?_append_none _ _ _ hfind0]
      simp [List.find?]
    have hhascl : (⟨df.cols ++ [⟨"cluster", .int64,
        labels.map (fun l : Int => Entry.num (l : ℚ))⟩]⟩ : DataFrame).hasCol
          "cluster" = true := by
      simp [DataFrame.hasCol, hgetcl]
    have hempcl : (⟨df.cols ++ [⟨"cluster", .int64,
        labels.map (fun l : Int => Entry.num (l : ℚ))⟩]⟩ : DataFrame).isEmpty =
        false := by
      simp only [DataFrame.isEmpty, hnrows']
      exact beq_eq_false_iff_ne.mpr hnrows0
    rw [get_cluster_summary_eq _ (labels.map (fun l : Int => Entry.num (l : ℚ)))
      hhascl hgetcl hempcl] at hp
    obtain ⟨cv, hcv, rfl⟩ := List.mem_map.mp hp
    obtain ⟨l0, hl0, rfl⟩ := List.mem_map.mp (dedupFirst_subset _ cv hcv)
    have hidxs_eq : (List.range (⟨df.cols ++ [⟨"cluster", .int64,
        labels.map (fun l : Int => Entry.num (l : ℚ))⟩]⟩ : DataFrame).nrows).filter
          (fun i => entryEqPy
            ((labels.map (fun l : Int => Entry.num (l : ℚ))).getD i .nan)
            (.num ((l0 : ℤ) : ℚ))) =
        (List.range df.nrows).filter (fun i => labels.getD i 0 == l0) := by
      rw [hnrows']
      apply List.filter_congr
      intro i hi
      have hilt : i < labels.length := by
        rw [hlablen]
        exact List.mem_range.mp hi
      rw [getD_map_lt _ _ _ _ 0 hilt]
      show ((labels.getD i 0 : ℚ) == ((l0 : ℤ) : ℚ)) = _
      rw [int_cast_beq]
    have hnumeric : (df.cols ++ [(⟨"cluster", .int64,
        labels.map (fun l : Int => Entry.num (l : ℚ))⟩ : Column)]).filter
          (fun col => isNumericDtype col.dtype) =
        [c, ⟨"cluster", .int64, labels.map (fun l : Int => Entry.num (l : ℚ))⟩] := by
      rw [List.filter_append, hnum1]
      rfl
    have hstatcols : ([c, (⟨"cluster", .int64,
        labels.map (fun l : Int => Entry.num (l : ℚ))⟩ : Column)]).filter
          (fun col => col.name != "cluster") = [c] := by
      have hb : (c.name == "cluster") = false := beq_eq_false_iff_ne.mpr hcne
      simp [List.filter_cons, bne, hb]
    simp only [hnumeric, hstatcols, hidxs_eq, entryToInt_intCast,
      List.map_cons, List.map_nil]
    have hV : ((List.range df.nrows).filter
        (fun i => labels.getD i 0 == l0)).map
          (fun i => c.entries.getD i .nan) =
        ((List.range df.nrows).filter
          (fun i => labels.getD i 0 == l0)).map
            (fun i => Entry.num (qs.getD i 0)) := by
      apply List.map_congr_left
      intro i hi
      have hilt : i < qs.length := by
        rw [hqslen]
        exact List.mem_range.mp (List.mem_of_mem_filter hi)
      rw [hqs, getD_map_lt _ _ _ _ 0 hilt]
    have hql : qs.length = labels.length := by
      rw [hqslen, hlablen]
    have hnums : (((List.range df.nrows).filter
        (fun i => labels.getD i 0 == l0)).map
          (fun i => c.entries.getD i .nan)).filterMap Entry.toQ =
        groupVals qs labels l0 := by
      rw [hV, filterMap_num]
      have h2 := groupVals_eq_idx qs labels l0 hql
      rw [hqslen] at h2
      exact h2
    have hgne : groupVals qs labels l0 ≠ [] := by
      obtain ⟨⟨j, hj⟩, hjl⟩ := List.mem_iff_get.mp hl0
      have hjd : labels.getD j 0 = l0 := by
        have h1 : labels[j]? = some (labels.get ⟨j, hj⟩) := by
          rw [List.getElem?_eq_getElem hj]
          simp [List.get_eq_getElem]
        rw [List.getD_eq_getElem?_getD, h1, Option.getD_some, hjl]
      have hjm : j ∈ (List.range df.nrows).filter
          (fun i => labels.getD i 0 == l0) := by
        rw [List.mem_filter]
        refine ⟨List.mem_range.mpr (by rw [← hlablen]; exact hj),
          beq_iff_eq.mpr hjd⟩
      intro hg0
      rw [← hnums, hV, filterMap_num, List.map_eq_nil_iff] at hg0
      rw [hg0] at hjm
      simp at hjm
    refine ⟨colStatsOf (((List.range df.nrows).filter
      (fun i => labels.getD i 0 == l0)).map
        (fun i => c.entries.getD i .nan)), by simp [List.lookup], hgne,
      ?_, ?_, ?_⟩
    · simp only [colStatsOf, hnums]
      rw [if_neg hgne]
    · simp only [colStatsOf, hnums]
    · simp only [colStatsOf, hnums]

theorem summarize_cluster_roundtrip_witness :
    ∃ labels : List Int,
      cluster_runs "kmeans" 3 accFrame none =
        (.ok (accFrame.setCol "cluster" .int64
          (labels.map (fun l : Int => Entry.num (l : ℚ)))), accFrame) ∧
      labels.length = accFrame.nrows ∧
      ∀ p ∈ get_cluster_summary (accFrame.setCol "cluster" .int64
          (labels.map (fun l : Int => Entry.num (l : ℚ)))),
        ∃ st : ColStats,
          p.2.stats.lookup accCol.name = some st ∧
          groupVals accQs labels p.1 ≠ [] ∧
          st.mean = some ((groupVals accQs labels p.1).sum /
            ((groupVals accQs labels p.1).length : ℚ)) ∧
          st.min = listMinQ (groupVals accQs labels p.1) ∧
          st.max = listMaxQ (groupVals accQs labels p.1) := by
  exact summarize_cluster_roundtrip accFrame 3 accCol accQs
    (by decide) (by decide) rfl (by decide) (by decide) (by decide) rfl
    (by decide) (by decide)
